import Mathlib

/-!
# Breakpoint location model (src/utils/breakpoint/index.js)

A shallow embedding of the breakpoint utilities of the debugger: the key
encodings of locations, the assertions on locations and breakpoints, the
lookup of a breakpoint at a location and the construction of breakpoints and
pending breakpoints.

Modelling conventions.

* A JavaScript value stored in a field is a `JSVal`: undefined, null, a
  boolean, a number or a string.  Numbers are the integers (line and column
  numbers); NaN, fractions and the exponent rendering of very large numbers
  are outside the model.
* An object is a record whose fields are `Option`s: `none` is "no such own
  property" (reading it gives undefined), `some v` is an own property with
  value `v`, so `{sourceUrl: undefined}` and `{}` are different objects, as
  `hasOwnProperty` sees them.
* A slot that holds an object (a location argument, the location of a
  breakpoint) is an `Option`: `none` is the value undefined.
* A function that can throw returns `Except Err`: an assertion failure with
  its message, or the TypeError of reading a property of undefined.
-/

namespace BreakpointUtils

/-- A JavaScript primitive value. -/
inductive JSVal where
  | undefined : JSVal
  | null : JSVal
  | bool (b : Bool) : JSVal
  | num (n : Int) : JSVal
  | str (s : String) : JSVal
  deriving DecidableEq, Repr

/-- The two ways an operation of this module fails. -/
inductive Err where
  | assertion (message : String) : Err
  | typeError : Err
  deriving DecidableEq, Repr

deriving instance DecidableEq for Except

namespace JSVal

/-- ToBoolean: undefined, null, false, 0 and the empty string are falsy. -/
def truthy : JSVal → Bool
  | undefined => false
  | null => false
  | bool b => b
  | num n => n != 0
  | str s => s != ""

/-- ToString, as a template literal applies it to an interpolated value. -/
def render : JSVal → String
  | undefined => "undefined"
  | null => "null"
  | bool true => "true"
  | bool false => "false"
  | num n => toString n
  | str s => s

/-- The operator `a || b`: `a` when it is truthy, `b` otherwise. -/
def or (a b : JSVal) : JSVal :=
  if a.truthy then a else b

/-- The operator `a === b` on primitive values. -/
def strictEq (a b : JSVal) : Bool :=
  decide (a = b)

/-- The test `typeof v === "string"`. -/
def isString : JSVal → Bool
  | str _ => true
  | _ => false

end JSVal

open JSVal

/-- A location object (Location and PendingLocation share the shape): each
field is an own property that may be missing. -/
structure Location where
  sourceId : Option JSVal
  sourceUrl : Option JSVal
  line : Option JSVal
  column : Option JSVal
  deriving DecidableEq, Repr

/-- Reading a property: a missing property reads as undefined. -/
def prop (p : Option JSVal) : JSVal :=
  p.getD JSVal.undefined

/-- The object `{ name, offset }` stored as the astLocation of a breakpoint. -/
structure ASTLocation where
  name : JSVal
  offset : Option Location
  deriving DecidableEq, Repr

/-- A breakpoint record, with the ten fields createBreakpoint writes. -/
structure Breakpoint where
  id : JSVal
  condition : JSVal
  disabled : JSVal
  hidden : JSVal
  loading : JSVal
  astLocation : Option ASTLocation
  generatedLocation : Option Location
  location : Option Location
  text : JSVal
  originalText : JSVal
  deriving DecidableEq, Repr

/-- A pending breakpoint record, with the five fields createPendingBreakpoint
writes. -/
structure PendingBreakpoint where
  condition : JSVal
  disabled : JSVal
  location : Option Location
  astLocation : Option ASTLocation
  generatedLocation : Option Location
  deriving DecidableEq, Repr

/-- The overrides bundle of createBreakpoint: the eight fields it reads, and
loading, which it does not read. A field the caller left out is undefined
(`none` for the two object fields). -/
structure Overrides where
  condition : JSVal
  disabled : JSVal
  hidden : JSVal
  generatedLocation : Option Location
  astLocation : Option ASTLocation
  id : JSVal
  text : JSVal
  originalText : JSVal
  loading : JSVal
  deriving DecidableEq, Repr

/-- Modelled from the spec: the assertion primitive imported from
utils/assert, which is not among the sources. `assert(condition, message)`
returns normally when the condition holds and is fatal, carrying the message,
when it does not. -/
def assert (condition : Bool) (message : String) : Except Err Unit :=
  if condition then Except.ok () else Except.error (Err.assertion message)

/-- firstString(...args): the first argument that is a string, or null. -/
def firstString : List JSVal → JSVal
  | [] => JSVal.null
  | arg :: rest => if arg.isString then arg else firstString rest

/-- locationMoved(location, newLocation). -/
def locationMoved (location newLocation : Option Location) : Except Err Bool :=
  match location, newLocation with
  | some l, some n =>
    Except.ok (!(strictEq (prop l.line) (prop n.line)) || !(strictEq (prop l.column) (prop n.column)))
  | _, _ => Except.error Err.typeError

/-- makeLocationId(location). -/
def makeLocationId (location : Option Location) : Except Err String :=
  match location with
  | none => Except.error Err.typeError
  | some l =>
    let columnString := JSVal.or (prop l.column) (JSVal.str "")
    Except.ok ((prop l.sourceId).render ++ ":" ++ (prop l.line).render ++ ":" ++ columnString.render)

/-- getLocationWithoutColumn(location). -/
def getLocationWithoutColumn (location : Option Location) : Except Err String :=
  match location with
  | none => Except.error Err.typeError
  | some l => Except.ok ((prop l.sourceId).render ++ ":" ++ (prop l.line).render)

/-- assertPendingLocation(location). The last assertion compares the boolean
that hasOwnProperty returns with null, which is never equal to it. -/
def assertPendingLocation (location : Option Location) : Except Err Unit := do
  assert location.isSome "location must exist"
  match location with
  | none => Except.error Err.typeError
  | some l =>
    assert (!(strictEq (prop l.sourceUrl) JSVal.undefined)) "location must have a source url"
    assert l.line.isSome "location must have a line"
    assert (!(strictEq (JSVal.bool l.column.isSome) JSVal.null)) "location must have a column"

/-- assertLocation(location). -/
def assertLocation (location : Option Location) : Except Err Unit := do
  assertPendingLocation location
  match location with
  | none => Except.error Err.typeError
  | some l => assert (prop l.sourceId).truthy "location must have a source id"

/-- makePendingLocationId(location). -/
def makePendingLocationId (location : Option Location) : Except Err String := do
  assertPendingLocation location
  match location with
  | none => Except.error Err.typeError
  | some l =>
    let sourceUrlString := JSVal.or (prop l.sourceUrl) (JSVal.str "")
    let columnString := JSVal.or (prop l.column) (JSVal.str "")
    Except.ok (sourceUrlString.render ++ ":" ++ (prop l.line).render ++ ":" ++ columnString.render)

/-- assertBreakpoint(breakpoint). -/
def assertBreakpoint (breakpoint : Breakpoint) : Except Err Unit := do
  assertLocation breakpoint.location
  assertLocation breakpoint.generatedLocation

/-- assertPendingBreakpoint(pendingBreakpoint). -/
def assertPendingBreakpoint (pendingBreakpoint : PendingBreakpoint) : Except Err Unit := do
  assertPendingLocation pendingBreakpoint.location
  assertPendingLocation pendingBreakpoint.generatedLocation

/-- The callback breakpointAtLocation passes to find. The flag
features.columnBreakpoints, read from the preferences, is a parameter. -/
def atLocation (columnBreakpoints : Bool) (line column : JSVal) (breakpoint : Breakpoint) :
    Except Err Bool :=
  match breakpoint.location with
  | none => Except.error Err.typeError
  | some l =>
    let sameLine := strictEq (prop l.line) line
    if !sameLine then Except.ok false
    else if !columnBreakpoints then Except.ok true
    else Except.ok (strictEq (prop l.column) column)

/-- Array.prototype.find with a callback that may throw: the first element
the callback accepts, undefined (`none`) when it accepts none. -/
def find {α : Type} (callback : α → Except Err Bool) : List α → Except Err (Option α)
  | [] => Except.ok none
  | x :: rest =>
    match callback x with
    | Except.error e => Except.error e
    | Except.ok true => Except.ok (some x)
    | Except.ok false => find callback rest

/-- breakpointAtLocation(breakpoints, location), with the feature flag as its
first argument. -/
def breakpointAtLocation (columnBreakpoints : Bool) (breakpoints : List Breakpoint)
    (location : Option Location) : Except Err (Option Breakpoint) :=
  match location with
  | none => Except.error Err.typeError
  | some q => find (atLocation columnBreakpoints (prop q.line) (prop q.column)) breakpoints

/-- breakpointExists(state, location). The selector getBreakpoint of the
store is a parameter; the result is undefined when the selector finds
nothing, a boolean otherwise. -/
def breakpointExists {State : Type} (getBreakpoint : State → Option Location → Option Breakpoint)
    (state : State) (location : Option Location) : JSVal :=
  match getBreakpoint state location with
  | none => JSVal.undefined
  | some currentBp => JSVal.bool (!currentBp.disabled.truthy)

/-- The operator `a || b` on slots that hold an object or undefined. -/
def orObj {α : Type} (a b : Option α) : Option α :=
  match a with
  | some x => some x
  | none => b

/-- The overrides `{}`. -/
def noOverrides : Overrides :=
  { condition := JSVal.undefined, disabled := JSVal.undefined, hidden := JSVal.undefined,
    generatedLocation := none, astLocation := none, id := JSVal.undefined,
    text := JSVal.undefined, originalText := JSVal.undefined, loading := JSVal.undefined }

/-- createBreakpoint(location, overrides = {}): overrides `none` is the
argument left out. -/
def createBreakpoint (location : Option Location) (overrides : Option Overrides) : Breakpoint :=
  let o := overrides.getD noOverrides
  let defaultASTLocation : ASTLocation := { name := JSVal.undefined, offset := location }
  { id := o.id,
    condition := JSVal.or o.condition JSVal.null,
    disabled := JSVal.or o.disabled (JSVal.bool false),
    hidden := JSVal.or o.hidden (JSVal.bool false),
    loading := JSVal.bool false,
    astLocation := orObj o.astLocation (some defaultASTLocation),
    generatedLocation := orObj o.generatedLocation location,
    location := location,
    text := o.text,
    originalText := o.originalText }

/-- createPendingLocation(location): the result has the three properties
sourceUrl, line and column, whatever the input has. -/
def createPendingLocation (location : Option Location) : Except Err Location :=
  match location with
  | none => Except.error Err.typeError
  | some l =>
    Except.ok { sourceId := none, sourceUrl := some (prop l.sourceUrl),
                line := some (prop l.line), column := some (prop l.column) }

/-- createPendingBreakpoint(bp). -/
def createPendingBreakpoint (bp : Breakpoint) : Except Err PendingBreakpoint := do
  let pendingLocation ← createPendingLocation bp.location
  let pendingGeneratedLocation ← createPendingLocation bp.generatedLocation
  assertPendingLocation (some pendingLocation)
  Except.ok { condition := bp.condition,
              disabled := bp.disabled,
              location := some pendingLocation,
              astLocation := bp.astLocation,
              generatedLocation := some pendingGeneratedLocation }

/-! ## Predicates used to state the lookup -/

/-- The breakpoint has a location object whose line is strictly equal to
`line`. -/
def onLine (line : JSVal) (breakpoint : Breakpoint) : Bool :=
  match breakpoint.location with
  | some l => decide (prop l.line = line)
  | none => false

/-- The breakpoint has a location object whose line is strictly equal to
`line` and whose column is strictly equal to `column`. -/
def onLineColumn (line column : JSVal) (breakpoint : Breakpoint) : Bool :=
  match breakpoint.location with
  | some l => decide (prop l.line = line) && decide (prop l.column = column)
  | none => false

/-- A breakpoint with nothing but a location that has a line and a column,
for the examples. -/
def bpAt (line column : Int) : Breakpoint :=
  createBreakpoint (some ⟨some (JSVal.str "a"), none, some (JSVal.num line), some (JSVal.num column)⟩) none

/-! ## The domain on which the key is read back -/

/-- The number a run of decimal digit characters denotes. -/
def decimalValue (ds : List Char) : Nat :=
  ds.foldl (fun acc c => 10 * acc + (c.toNat - 48)) 0

/-- The restricted domain of the key of makeLocationId: the sourceId is a
string without a colon, the line is a natural number, and the column is
absent or a positive natural number. -/
def InKeyDomain (l : Location) : Prop :=
  (∃ s : String, l.sourceId = some (JSVal.str s) ∧ ':' ∉ s.data)
    ∧ (∃ n : Nat, l.line = some (JSVal.num (n : Int)))
    ∧ (l.column = none ∨ ∃ c : Nat, 0 < c ∧ l.column = some (JSVal.num (c : Int)))

/-! ## Shared lemmas -/

theorem assert_true (message : String) : assert true message = Except.ok () := rfl

theorem assert_false (message : String) :
    assert false message = Except.error (Err.assertion message) := rfl

theorem strictEq_iff (a b : JSVal) : strictEq a b = true ↔ a = b := by
  simp [strictEq]

/-- When the callback returns on every element, find is List.find?. -/
theorem find_eq_find? {α : Type} (callback : α → Except Err Bool) (p : α → Bool) (xs : List α)
    (h : ∀ x ∈ xs, callback x = Except.ok (p x)) :
    find callback xs = Except.ok (xs.find? p) := by
  induction xs with
  | nil => rfl
  | cons x rest ih =>
    have hx := h x (List.mem_cons_self x rest)
    have hrest := ih (fun y hy => h y (List.mem_cons_of_mem x hy))
    unfold find
    rw [hx]
    cases hp : p x <;> simp [hp, hrest]

/-- The callback of the lookup on a breakpoint that has a location. -/
theorem atLocation_of_location (columnBreakpoints : Bool) (line column : JSVal)
    (breakpoint : Breakpoint) (h : breakpoint.location ≠ none) :
    atLocation columnBreakpoints line column breakpoint
      = Except.ok (if columnBreakpoints then onLineColumn line column breakpoint
          else onLine line breakpoint) := by
  unfold atLocation onLineColumn onLine
  cases hl : breakpoint.location with
  | none => exact absurd hl h
  | some l =>
    by_cases h1 : prop l.line = line <;> cases columnBreakpoints <;> simp [strictEq, h1]

theorem assertPendingLocation_none :
    assertPendingLocation none = Except.error (Err.assertion "location must exist") := rfl

/-- The outcome of assertPendingLocation on an object, by cases. -/
theorem assertPendingLocation_some (l : Location) :
    assertPendingLocation (some l) =
      if prop l.sourceUrl = JSVal.undefined then
        Except.error (Err.assertion "location must have a source url")
      else if l.line.isSome then Except.ok ()
      else Except.error (Err.assertion "location must have a line") := by
  unfold assertPendingLocation
  by_cases hu : prop l.sourceUrl = JSVal.undefined
  · simp [hu, strictEq, assert, bind, Except.bind]
  · cases hl : l.line <;> simp [hu, hl, strictEq, assert, bind, Except.bind]

/-! ## Key encoding of a location -/

/-- C1, as the code has it: makeLocationId does not tell column 0 from an
absent column. For every sourceId, sourceUrl and line the location with
column 0 and the location without a column get the same key, because
`column || ""` replaces the falsy 0 by the empty string; for sourceId "s"
and line 10 both keys are "s:10:". -/
theorem makeLocationId_column_zero_as_absent (sourceId sourceUrl line : Option JSVal) :
    makeLocationId (some ⟨sourceId, sourceUrl, line, some (JSVal.num 0)⟩)
        = makeLocationId (some ⟨sourceId, sourceUrl, line, none⟩)
      ∧ makeLocationId (some ⟨some (JSVal.str "s"), none, some (JSVal.num 10), some (JSVal.num 0)⟩)
        = Except.ok "s:10:"
      ∧ makeLocationId (some ⟨some (JSVal.str "s"), none, some (JSVal.num 10), none⟩)
        = Except.ok "s:10:" :=
  ⟨rfl, rfl, rfl⟩

/-- C2, as the code has it: for a string sourceId s and a numeric line n,
makeLocationId returns s ++ ":" ++ decimal(n) ++ ":" ++ columnSegment, where
columnSegment is empty when the column is absent, the decimal column when
the column is a number other than 0, and empty again when the column is 0;
so {sourceId: "src1", line: 10} gives "src1:10:" and
{sourceId: "src1", line: 10, column: 0} gives "src1:10:" too, not
"src1:10:0". -/
theorem makeLocationId_encoding (s : String) (sourceUrl : Option JSVal) (n : Int) :
    makeLocationId (some ⟨some (JSVal.str s), sourceUrl, some (JSVal.num n), none⟩)
        = Except.ok (s ++ ":" ++ toString n ++ ":" ++ "")
      ∧ (∀ c : Int,
          makeLocationId (some ⟨some (JSVal.str s), sourceUrl, some (JSVal.num n), some (JSVal.num c)⟩)
            = Except.ok (s ++ ":" ++ toString n ++ ":" ++ (if c = 0 then "" else toString c)))
      ∧ makeLocationId (some ⟨some (JSVal.str "src1"), none, some (JSVal.num 10), none⟩)
        = Except.ok "src1:10:"
      ∧ makeLocationId (some ⟨some (JSVal.str "src1"), none, some (JSVal.num 10), some (JSVal.num 0)⟩)
        = Except.ok "src1:10:"
      ∧ makeLocationId (some ⟨some (JSVal.str "src1"), none, some (JSVal.num 10), some (JSVal.num 0)⟩)
        ≠ Except.ok "src1:10:0" := by
  refine ⟨rfl, ?_, rfl, rfl, by decide⟩
  intro c
  by_cases hc : c = 0
  · subst hc; rfl
  · simp [makeLocationId, prop, JSVal.or, JSVal.truthy, JSVal.render, hc]

/-! ## Comparing two locations -/

/-- C3: locationMoved on two location objects always returns, and returns
false exactly when the two lines are equal and the two columns are equal
(a missing column reads as undefined, so two missing columns are equal);
replacing the sourceId of either location does not change the result. -/
theorem locationMoved_false_iff (a b : Location) :
    (∃ r, locationMoved (some a) (some b) = Except.ok r)
      ∧ (locationMoved (some a) (some b) = Except.ok false
          ↔ prop a.line = prop b.line ∧ prop a.column = prop b.column)
      ∧ (∀ s t : Option JSVal,
          locationMoved (some { a with sourceId := s }) (some { b with sourceId := t })
            = locationMoved (some a) (some b)) := by
  refine ⟨⟨_, rfl⟩, ?_, fun _ _ => rfl⟩
  simp [locationMoved, strictEq]

/-! ## Assertions on locations -/

/-- C4: assertPendingLocation succeeds exactly when the location is present,
its sourceUrl does not read as undefined (null is accepted) and it has a
line property, and fails in every other case; the column plays no part.
{sourceUrl: null, line: 0, column: 0} passes and
{sourceUrl: undefined, line: 1} fails. -/
theorem assertPendingLocation_ok_iff (location : Option Location) :
    (assertPendingLocation location = Except.ok ()
        ↔ ∃ l, location = some l ∧ prop l.sourceUrl ≠ JSVal.undefined ∧ l.line ≠ none)
      ∧ ((∃ e, assertPendingLocation location = Except.error e)
        ↔ ¬ ∃ l, location = some l ∧ prop l.sourceUrl ≠ JSVal.undefined ∧ l.line ≠ none)
      ∧ assertPendingLocation
          (some ⟨none, some JSVal.null, some (JSVal.num 0), some (JSVal.num 0)⟩) = Except.ok ()
      ∧ assertPendingLocation (some ⟨none, some JSVal.undefined, some (JSVal.num 1), none⟩)
          = Except.error (Err.assertion "location must have a source url") := by
  refine ⟨?_, ?_, rfl, rfl⟩
  · cases location with
    | none => simp [assertPendingLocation_none]
    | some l =>
      rw [assertPendingLocation_some]
      by_cases hu : prop l.sourceUrl = JSVal.undefined
      · simp [hu]
      · cases hl : l.line <;> simp [hu, hl]
  · cases location with
    | none => simp [assertPendingLocation_none]
    | some l =>
      rw [assertPendingLocation_some]
      by_cases hu : prop l.sourceUrl = JSVal.undefined
      · simp [hu]
      · cases hl : l.line <;> simp [hu, hl]

/-- C5: assertLocation succeeds exactly when assertPendingLocation succeeds
and the sourceId is truthy; a string sourceId is truthy exactly when it is
not empty; a location that passes assertPendingLocation but has no sourceId
or the sourceId "" is rejected with "location must have a source id". -/
theorem assertLocation_ok_iff (location : Option Location) :
    (assertLocation location = Except.ok ()
        ↔ assertPendingLocation location = Except.ok ()
          ∧ ∃ l, location = some l ∧ (prop l.sourceId).truthy = true)
      ∧ (∀ s : String, (prop (some (JSVal.str s))).truthy = true ↔ s ≠ "")
      ∧ (∀ l, location = some l → assertPendingLocation location = Except.ok () →
          l.sourceId = none ∨ l.sourceId = some (JSVal.str "") →
          assertLocation location = Except.error (Err.assertion "location must have a source id")) := by
  refine ⟨?_, ?_, ?_⟩
  · cases location with
    | none => simp [assertLocation, assertPendingLocation_none, bind, Except.bind]
    | some l =>
      unfold assertLocation
      cases hp : assertPendingLocation (some l) with
      | error e => simp [bind, Except.bind]
      | ok u =>
        cases ht : (prop l.sourceId).truthy <;> simp [bind, Except.bind, assert, ht]
  · intro s
    simp [prop, JSVal.truthy]
  · intro l hl hp hs
    subst hl
    unfold assertLocation
    rw [hp]
    rcases hs with hs | hs <;> simp [bind, Except.bind, assert, hs, prop, JSVal.truthy]

theorem assertLocation_ok_iff_witness :
    assertPendingLocation
        (some ⟨some (JSVal.str ""), some JSVal.null, some (JSVal.num 1), none⟩) = Except.ok ()
      ∧ assertLocation (some ⟨some (JSVal.str ""), some JSVal.null, some (JSVal.num 1), none⟩)
        = Except.error (Err.assertion "location must have a source id") :=
  ⟨rfl, (assertLocation_ok_iff _).2.2 _ rfl rfl (Or.inr rfl)⟩

/-! ## Key encoding of a pending location -/

/-- C6: makePendingLocationId validates before it encodes. It fails with an
error exactly when assertPendingLocation fails with that error, it returns a
key exactly when assertPendingLocation succeeds, and it returns no key for a
location whose sourceUrl reads as undefined or that has no line property. -/
theorem makePendingLocationId_validates (location : Option Location) :
    (∀ e, makePendingLocationId location = Except.error e
        ↔ assertPendingLocation location = Except.error e)
      ∧ ((∃ k, makePendingLocationId location = Except.ok k)
        ↔ assertPendingLocation location = Except.ok ())
      ∧ (∀ l, location = some l → prop l.sourceUrl = JSVal.undefined ∨ l.line = none →
          ∀ k, makePendingLocationId location ≠ Except.ok k) := by
  have key : ∀ l : Location, assertPendingLocation (some l) = Except.ok () →
      ∃ k, makePendingLocationId (some l) = Except.ok k := by
    intro l h
    unfold makePendingLocationId
    rw [h]
    exact ⟨_, rfl⟩
  have fail : ∀ e, assertPendingLocation location = Except.error e →
      makePendingLocationId location = Except.error e := by
    intro e h
    unfold makePendingLocationId
    rw [h]
    rfl
  refine ⟨?_, ?_, ?_⟩
  · intro e
    constructor
    · intro h
      cases hp : assertPendingLocation location with
      | error e2 =>
        rw [fail e2 hp] at h
        cases h
        rfl
      | ok u =>
        cases location with
        | none => simp [assertPendingLocation_none] at hp
        | some l =>
          obtain ⟨k, hk⟩ := key l hp
          rw [hk] at h
          cases h
    · exact fail e
  · constructor
    · rintro ⟨k, hk⟩
      cases hp : assertPendingLocation location with
      | error e2 =>
        rw [fail e2 hp] at hk
        cases hk
      | ok u => rfl
    · intro h
      cases location with
      | none => simp [assertPendingLocation_none] at h
      | some l => exact key l h
  · intro l hl hbad k hk
    subst hl
    have hp : ∃ e, assertPendingLocation (some l) = Except.error e := by
      rw [assertPendingLocation_some]
      rcases hbad with hb | hb
      · simp [hb]
      · by_cases hu : prop l.sourceUrl = JSVal.undefined <;> simp [hu, hb]
    obtain ⟨e, he⟩ := hp
    rw [fail e he] at hk
    cases hk

theorem makePendingLocationId_validates_witness :
    ∀ k, makePendingLocationId (some ⟨none, some JSVal.undefined, some (JSVal.num 1), none⟩)
      ≠ Except.ok k :=
  (makePendingLocationId_validates _).2.2 _ rfl (Or.inl rfl)

/-- C7, as the code has it: for a pending location with a numeric line n,
makePendingLocationId returns urlSegment ++ ":" ++ decimal(n) ++ ":" ++
columnSegment, where urlSegment is the sourceUrl, or empty when the sourceUrl
is null, and columnSegment is empty when the column is absent, the decimal
column when the column is a number other than 0, and empty again when the
column is 0; so {sourceUrl: null, line: 10} gives ":10:" and
{sourceUrl: "a.js", line: 10, column: 0} gives "a.js:10:", not "a.js:10:0". -/
theorem makePendingLocationId_encoding (sourceId : Option JSVal) (n : Int) :
    (∀ u : String,
        makePendingLocationId (some ⟨sourceId, some (JSVal.str u), some (JSVal.num n), none⟩)
          = Except.ok (u ++ ":" ++ toString n ++ ":" ++ ""))
      ∧ makePendingLocationId (some ⟨sourceId, some JSVal.null, some (JSVal.num n), none⟩)
          = Except.ok ("" ++ ":" ++ toString n ++ ":" ++ "")
      ∧ (∀ (u : String) (c : Int),
        makePendingLocationId (some ⟨sourceId, some (JSVal.str u), some (JSVal.num n), some (JSVal.num c)⟩)
          = Except.ok (u ++ ":" ++ toString n ++ ":" ++ (if c = 0 then "" else toString c)))
      ∧ (∀ c : Int,
        makePendingLocationId (some ⟨sourceId, some JSVal.null, some (JSVal.num n), some (JSVal.num c)⟩)
          = Except.ok ("" ++ ":" ++ toString n ++ ":" ++ (if c = 0 then "" else toString c)))
      ∧ makePendingLocationId (some ⟨none, some JSVal.null, some (JSVal.num 10), none⟩)
          = Except.ok ":10:"
      ∧ makePendingLocationId
          (some ⟨none, some (JSVal.str "a.js"), some (JSVal.num 10), some (JSVal.num 0)⟩)
          = Except.ok "a.js:10:"
      ∧ makePendingLocationId
          (some ⟨none, some (JSVal.str "a.js"), some (JSVal.num 10), some (JSVal.num 0)⟩)
          ≠ Except.ok "a.js:10:0" := by
  have url : ∀ u : String, (JSVal.or (JSVal.str u) (JSVal.str "")).render = u := by
    intro u
    by_cases hu : u = "" <;> simp [JSVal.or, JSVal.truthy, JSVal.render, hu]
  have col : ∀ c : Int,
      (JSVal.or (JSVal.num c) (JSVal.str "")).render = if c = 0 then "" else toString c := by
    intro c
    by_cases hc : c = 0 <;> simp [JSVal.or, JSVal.truthy, JSVal.render, hc]
  have rnum : (JSVal.num n).render = toString n := rfl
  have absent : (JSVal.or JSVal.undefined (JSVal.str "")).render = "" := rfl
  have rnull : (JSVal.or JSVal.null (JSVal.str "")).render = "" := rfl
  refine ⟨?_, ?_, ?_, ?_, rfl, rfl, by decide⟩
  · intro u
    simp [makePendingLocationId, assertPendingLocation_some, prop, bind, Except.bind, url, rnum,
      absent]
  · simp [makePendingLocationId, assertPendingLocation_some, prop, bind, Except.bind, rnull, rnum,
      absent]
  · intro u c
    simp [makePendingLocationId, assertPendingLocation_some, prop, bind, Except.bind, url, col,
      rnum]
  · intro c
    simp [makePendingLocationId, assertPendingLocation_some, prop, bind, Except.bind, col, rnull,
      rnum]

/-! ## Lookup of a breakpoint at a location -/

/-- C8: with column breakpoints disabled, on a list of breakpoints that all
have a location, breakpointAtLocation returns; it returns the breakpoint b
exactly when b is the first in the list whose location.line equals the line
of the query; it returns nothing exactly when no breakpoint of the list is on
that line; and the column of the query does not matter. On
[{line:5,column:2}, {line:5,column:9}] and the query {line:5,column:9} it
returns the column-2 entry. -/
theorem breakpointAtLocation_disabled (breakpoints : List Breakpoint) (q : Location)
    (hloc : ∀ b ∈ breakpoints, b.location ≠ none) :
    (∃ r, breakpointAtLocation false breakpoints (some q) = Except.ok r)
      ∧ (∀ b, breakpointAtLocation false breakpoints (some q) = Except.ok (some b)
          ↔ ∃ before after, breakpoints = before ++ b :: after
              ∧ onLine (prop q.line) b = true
              ∧ ∀ x ∈ before, onLine (prop q.line) x = false)
      ∧ (breakpointAtLocation false breakpoints (some q) = Except.ok none
          ↔ ∀ x ∈ breakpoints, onLine (prop q.line) x = false)
      ∧ (∀ column : Option JSVal,
          breakpointAtLocation false breakpoints (some { q with column := column })
            = breakpointAtLocation false breakpoints (some q))
      ∧ breakpointAtLocation false [bpAt 5 2, bpAt 5 9]
          (some ⟨none, none, some (JSVal.num 5), some (JSVal.num 9)⟩)
          = Except.ok (some (bpAt 5 2)) := by
  have hfind : ∀ c : JSVal, find (atLocation false (prop q.line) c) breakpoints
      = Except.ok (breakpoints.find? (onLine (prop q.line))) := by
    intro c
    apply find_eq_find?
    intro x hx
    rw [atLocation_of_location false _ _ x (hloc x hx)]
    rfl
  have hres : breakpointAtLocation false breakpoints (some q)
      = Except.ok (breakpoints.find? (onLine (prop q.line))) := hfind _
  refine ⟨⟨_, hres⟩, ?_, ?_, ?_, rfl⟩
  · intro b
    rw [hres, Except.ok.injEq, List.find?_eq_some]
    constructor
    · rintro ⟨hb, as, bs, hsplit, hpre⟩
      exact ⟨as, bs, hsplit, hb, fun x hx => by simpa using hpre x hx⟩
    · rintro ⟨as, bs, hsplit, hb, hpre⟩
      exact ⟨hb, as, bs, hsplit, fun x hx => by simpa using hpre x hx⟩
  · rw [hres, Except.ok.injEq, List.find?_eq_none]
    simp
  · intro column
    rw [hres]
    exact hfind _

theorem breakpointAtLocation_disabled_witness :
    breakpointAtLocation false [bpAt 5 2, bpAt 7 0]
        (some ⟨none, none, some (JSVal.num 7), none⟩) = Except.ok (some (bpAt 7 0))
      ∧ onLine (JSVal.num 7) (bpAt 5 2) = false :=
  ⟨((breakpointAtLocation_disabled [bpAt 5 2, bpAt 7 0]
        ⟨none, none, some (JSVal.num 7), none⟩ (by decide)).2.1 (bpAt 7 0)).2
      ⟨[bpAt 5 2], [], rfl, rfl, by decide⟩,
    rfl⟩

/-- C9: with column breakpoints enabled, on a list of breakpoints that all
have a location, breakpointAtLocation returns; it returns the breakpoint b
exactly when b is the first in the list whose location.line and
location.column both equal those of the query (a missing column reads as
undefined, so two missing columns are equal); it returns nothing exactly when
no breakpoint of the list matches both. On
[{line:5,column:2}, {line:5,column:9}] and the query {line:5,column:9} it
returns the second entry, and a breakpoint without a column is found by a
query without a column. -/
theorem breakpointAtLocation_enabled (breakpoints : List Breakpoint) (q : Location)
    (hloc : ∀ b ∈ breakpoints, b.location ≠ none) :
    (∃ r, breakpointAtLocation true breakpoints (some q) = Except.ok r)
      ∧ (∀ b, breakpointAtLocation true breakpoints (some q) = Except.ok (some b)
          ↔ ∃ before after, breakpoints = before ++ b :: after
              ∧ onLineColumn (prop q.line) (prop q.column) b = true
              ∧ ∀ x ∈ before, onLineColumn (prop q.line) (prop q.column) x = false)
      ∧ (breakpointAtLocation true breakpoints (some q) = Except.ok none
          ↔ ∀ x ∈ breakpoints, onLineColumn (prop q.line) (prop q.column) x = false)
      ∧ breakpointAtLocation true [bpAt 5 2, bpAt 5 9]
          (some ⟨none, none, some (JSVal.num 5), some (JSVal.num 9)⟩)
          = Except.ok (some (bpAt 5 9))
      ∧ breakpointAtLocation true
          [bpAt 5 2, createBreakpoint (some ⟨some (JSVal.str "a"), none, some (JSVal.num 5), none⟩) none]
          (some ⟨none, none, some (JSVal.num 5), none⟩)
          = Except.ok (some
              (createBreakpoint (some ⟨some (JSVal.str "a"), none, some (JSVal.num 5), none⟩) none)) := by
  have hres : breakpointAtLocation true breakpoints (some q)
      = Except.ok (breakpoints.find? (onLineColumn (prop q.line) (prop q.column))) := by
    unfold breakpointAtLocation
    apply find_eq_find?
    intro x hx
    rw [atLocation_of_location true _ _ x (hloc x hx)]
    rfl
  refine ⟨⟨_, hres⟩, ?_, ?_, rfl, rfl⟩
  · intro b
    rw [hres, Except.ok.injEq, List.find?_eq_some]
    constructor
    · rintro ⟨hb, as, bs, hsplit, hpre⟩
      exact ⟨as, bs, hsplit, hb, fun x hx => by simpa using hpre x hx⟩
    · rintro ⟨as, bs, hsplit, hb, hpre⟩
      exact ⟨hb, as, bs, hsplit, fun x hx => by simpa using hpre x hx⟩
  · rw [hres, Except.ok.injEq, List.find?_eq_none]
    simp

theorem breakpointAtLocation_enabled_witness :
    breakpointAtLocation true [bpAt 7 0, bpAt 7 3]
        (some ⟨none, none, some (JSVal.num 7), some (JSVal.num 3)⟩) = Except.ok (some (bpAt 7 3))
      ∧ onLineColumn (JSVal.num 7) (JSVal.num 3) (bpAt 7 0) = false :=
  ⟨((breakpointAtLocation_enabled [bpAt 7 0, bpAt 7 3]
        ⟨none, none, some (JSVal.num 7), some (JSVal.num 3)⟩ (by decide)).2.1 (bpAt 7 3)).2
      ⟨[bpAt 7 0], [], rfl, rfl, by decide⟩,
    rfl⟩

/-! ## From a location to a pending breakpoint -/

/-- C10: for every location object whose sourceUrl does not read as
undefined (it is a string or null), createPendingBreakpoint applied to
createBreakpoint(loc), with the overrides left out or empty, succeeds, and
the pending breakpoint it returns passes assertPendingBreakpoint. -/
theorem createPendingBreakpoint_createBreakpoint (loc : Location)
    (hurl : prop loc.sourceUrl ≠ JSVal.undefined) :
    (∃ p, createPendingBreakpoint (createBreakpoint (some loc) none) = Except.ok p
        ∧ assertPendingBreakpoint p = Except.ok ())
      ∧ (∃ p, createPendingBreakpoint (createBreakpoint (some loc) (some noOverrides)) = Except.ok p
        ∧ assertPendingBreakpoint p = Except.ok ()) := by
  have hpl : assertPendingLocation
      (some { sourceId := none, sourceUrl := some (prop loc.sourceUrl),
              line := some (prop loc.line), column := some (prop loc.column) })
      = Except.ok () := by
    rw [assertPendingLocation_some]
    simp [prop, hurl]
    exact hurl
  have hres : ∀ o : Option Overrides, o = none ∨ o = some noOverrides →
      createPendingBreakpoint (createBreakpoint (some loc) o)
        = Except.ok
            { condition := JSVal.null,
              disabled := JSVal.bool false,
              location := some { sourceId := none, sourceUrl := some (prop loc.sourceUrl),
                                 line := some (prop loc.line), column := some (prop loc.column) },
              astLocation := some { name := JSVal.undefined, offset := some loc },
              generatedLocation :=
                some { sourceId := none, sourceUrl := some (prop loc.sourceUrl),
                       line := some (prop loc.line), column := some (prop loc.column) } } := by
    intro o ho
    rcases ho with ho | ho <;> subst ho <;>
    · simp only [createPendingBreakpoint, createBreakpoint, createPendingLocation, orObj,
        Option.getD, noOverrides, bind, Except.bind, hpl]
      rfl
  constructor
  · refine ⟨_, hres none (Or.inl rfl), ?_⟩
    simp only [assertPendingBreakpoint, bind, Except.bind, hpl]
  · refine ⟨_, hres (some noOverrides) (Or.inr rfl), ?_⟩
    simp only [assertPendingBreakpoint, bind, Except.bind, hpl]

theorem createPendingBreakpoint_createBreakpoint_witness :
    ∃ p, createPendingBreakpoint
          (createBreakpoint (some ⟨some (JSVal.str "s"), some JSVal.null, none, none⟩) none)
          = Except.ok p
      ∧ assertPendingBreakpoint p = Except.ok () :=
  (createPendingBreakpoint_createBreakpoint
    ⟨some (JSVal.str "s"), some JSVal.null, none, none⟩ (by decide)).1

/-! ## Construction of breakpoints and pending breakpoints -/

/-- The outcome of createPendingBreakpoint on a breakpoint that has both
locations, by cases on the sourceUrl of the primary one. -/
theorem createPendingBreakpoint_some (bp : Breakpoint) (l g : Location)
    (hl : bp.location = some l) (hg : bp.generatedLocation = some g) :
    createPendingBreakpoint bp =
      if prop l.sourceUrl = JSVal.undefined then
        Except.error (Err.assertion "location must have a source url")
      else
        Except.ok
          { condition := bp.condition,
            disabled := bp.disabled,
            location := some { sourceId := none, sourceUrl := some (prop l.sourceUrl),
                               line := some (prop l.line), column := some (prop l.column) },
            astLocation := bp.astLocation,
            generatedLocation :=
              some { sourceId := none, sourceUrl := some (prop g.sourceUrl),
                     line := some (prop g.line), column := some (prop g.column) } } := by
  unfold createPendingBreakpoint
  rw [hl, hg]
  simp only [createPendingLocation, bind, Except.bind]
  rw [assertPendingLocation_some]
  have hread : prop (some (prop l.sourceUrl)) = prop l.sourceUrl := rfl
  rw [hread]
  by_cases hu : prop l.sourceUrl = JSVal.undefined
  · rw [if_pos hu, if_pos hu]
  · rw [if_neg hu, if_neg hu]
    rfl

/-- Reading a location of undefined throws before anything is returned. -/
theorem createPendingBreakpoint_none (bp : Breakpoint)
    (h : bp.location = none ∨ bp.generatedLocation = none) :
    createPendingBreakpoint bp = Except.error Err.typeError := by
  unfold createPendingBreakpoint
  rcases h with h | h
  · rw [h]
    rfl
  · rw [h]
    cases bp.location <;> rfl

/-- C11: when createPendingBreakpoint succeeds on a breakpoint, the
breakpoint has a location l and a generatedLocation g, the result's location
and generatedLocation are the objects with exactly the properties sourceUrl,
line and column as read from l and from g (no sourceId), and its condition,
disabled and astLocation are the breakpoint's; the record has no other
field, and changing id, hidden, loading, text or originalText of the
breakpoint does not change the outcome. -/
theorem createPendingBreakpoint_fields (bp : Breakpoint) (p : PendingBreakpoint)
    (h : createPendingBreakpoint bp = Except.ok p) :
    (∃ l g, bp.location = some l ∧ bp.generatedLocation = some g
        ∧ p.location = some { sourceId := none, sourceUrl := some (prop l.sourceUrl),
                              line := some (prop l.line), column := some (prop l.column) }
        ∧ p.generatedLocation = some { sourceId := none, sourceUrl := some (prop g.sourceUrl),
                                       line := some (prop g.line), column := some (prop g.column) })
      ∧ p.condition = bp.condition
      ∧ p.disabled = bp.disabled
      ∧ p.astLocation = bp.astLocation
      ∧ (∀ id hidden loading text originalText : JSVal,
          createPendingBreakpoint
            { bp with id := id, hidden := hidden, loading := loading, text := text,
                      originalText := originalText } = Except.ok p) := by
  cases hl : bp.location with
  | none =>
    rw [createPendingBreakpoint_none bp (Or.inl hl)] at h
    cases h
  | some l =>
    cases hg : bp.generatedLocation with
    | none =>
      rw [createPendingBreakpoint_none bp (Or.inr hg)] at h
      cases h
    | some g =>
      have h2 := h
      rw [createPendingBreakpoint_some bp l g hl hg] at h2
      by_cases hu : prop l.sourceUrl = JSVal.undefined
      · simp [hu] at h2
      · simp only [hu, if_false, Except.ok.injEq] at h2
        subst h2
        refine ⟨⟨l, g, rfl, rfl, rfl, rfl⟩, rfl, rfl, rfl, ?_⟩
        intro id hidden loading text originalText
        rw [createPendingBreakpoint_some _ l g rfl rfl]
        simp [hu]

theorem createPendingBreakpoint_fields_witness :
    createPendingBreakpoint
        (createBreakpoint
          (some ⟨some (JSVal.str "s"), some (JSVal.str "a.js"), some (JSVal.num 2), none⟩) none)
      = Except.ok
        { condition := JSVal.null, disabled := JSVal.bool false,
          location := some ⟨none, some (JSVal.str "a.js"), some (JSVal.num 2),
                            some JSVal.undefined⟩,
          astLocation := some { name := JSVal.undefined,
                                offset := some ⟨some (JSVal.str "s"), some (JSVal.str "a.js"),
                                                some (JSVal.num 2), none⟩ },
          generatedLocation := some ⟨none, some (JSVal.str "a.js"), some (JSVal.num 2),
                                     some JSVal.undefined⟩ }
      ∧ JSVal.null
        = (createBreakpoint
            (some ⟨some (JSVal.str "s"), some (JSVal.str "a.js"), some (JSVal.num 2), none⟩)
            none).condition :=
  ⟨rfl,
    (createPendingBreakpoint_fields
      (createBreakpoint
        (some ⟨some (JSVal.str "s"), some (JSVal.str "a.js"), some (JSVal.num 2), none⟩) none)
      { condition := JSVal.null, disabled := JSVal.bool false,
        location := some ⟨none, some (JSVal.str "a.js"), some (JSVal.num 2),
                          some JSVal.undefined⟩,
        astLocation := some { name := JSVal.undefined,
                              offset := some ⟨some (JSVal.str "s"), some (JSVal.str "a.js"),
                                              some (JSVal.num 2), none⟩ },
        generatedLocation := some ⟨none, some (JSVal.str "a.js"), some (JSVal.num 2),
                                   some JSVal.undefined⟩ }
      rfl).2.1⟩

/-- C12: createBreakpoint(loc, {}) returns a breakpoint whose location and
generatedLocation are loc, whose astLocation is {name: undefined, offset:
loc}, whose condition is null and whose disabled, hidden and loading are
false; its id, text and originalText are undefined. Leaving the overrides
out gives the same breakpoint. -/
theorem createBreakpoint_defaults (loc : Location) :
    createBreakpoint (some loc) (some noOverrides)
        = { id := JSVal.undefined,
            condition := JSVal.null,
            disabled := JSVal.bool false,
            hidden := JSVal.bool false,
            loading := JSVal.bool false,
            astLocation := some { name := JSVal.undefined, offset := some loc },
            generatedLocation := some loc,
            location := some loc,
            text := JSVal.undefined,
            originalText := JSVal.undefined }
      ∧ createBreakpoint (some loc) none = createBreakpoint (some loc) (some noOverrides) :=
  ⟨rfl, rfl⟩

/-- C13: createBreakpoint takes condition, disabled and hidden from the
overrides when the override is truthy and uses null, false and false
otherwise; takes astLocation and generatedLocation from the overrides when
they are given and uses {name: undefined, offset: location} and location
otherwise; passes id, text and originalText through; sets location to the
given location; and sets loading to false whatever the overrides hold. With
the overrides {condition: "", loading: true} the condition is null and
loading is false. -/
theorem createBreakpoint_overrides (location : Option Location) (o : Overrides) :
    (createBreakpoint location (some o)).condition
        = (if o.condition.truthy = true then o.condition else JSVal.null)
      ∧ (createBreakpoint location (some o)).disabled
        = (if o.disabled.truthy = true then o.disabled else JSVal.bool false)
      ∧ (createBreakpoint location (some o)).hidden
        = (if o.hidden.truthy = true then o.hidden else JSVal.bool false)
      ∧ (createBreakpoint location (some o)).astLocation
        = (match o.astLocation with
            | some a => some a
            | none => some { name := JSVal.undefined, offset := location })
      ∧ (createBreakpoint location (some o)).generatedLocation
        = (match o.generatedLocation with
            | some g => some g
            | none => location)
      ∧ (createBreakpoint location (some o)).id = o.id
      ∧ (createBreakpoint location (some o)).text = o.text
      ∧ (createBreakpoint location (some o)).originalText = o.originalText
      ∧ (createBreakpoint location (some o)).location = location
      ∧ (createBreakpoint location (some o)).loading = JSVal.bool false
      ∧ (createBreakpoint location
          (some { noOverrides with condition := JSVal.str "", loading := JSVal.bool true })).condition
        = JSVal.null
      ∧ (createBreakpoint location
          (some { noOverrides with condition := JSVal.str "", loading := JSVal.bool true })).loading
        = JSVal.bool false := by
  refine ⟨rfl, rfl, rfl, ?_, ?_, rfl, rfl, rfl, rfl, rfl, rfl, rfl⟩
  · show orObj o.astLocation _ = _
    cases o.astLocation <;> rfl
  · show orObj o.generatedLocation _ = _
    cases o.generatedLocation <;> rfl

/-! ## The store predicate -/

/-- C14: breakpointExists returns true exactly when the selector
getBreakpoint finds a breakpoint and its disabled field is falsy; on a found
breakpoint with disabled: true it returns false and on one with disabled:
false it returns true. -/
theorem breakpointExists_true_iff {State : Type}
    (getBreakpoint : State → Option Location → Option Breakpoint) (state : State)
    (location : Option Location) :
    (breakpointExists getBreakpoint state location = JSVal.bool true
        ↔ ∃ bp, getBreakpoint state location = some bp ∧ bp.disabled.truthy = false)
      ∧ (∀ bp, getBreakpoint state location = some bp → bp.disabled = JSVal.bool true →
          breakpointExists getBreakpoint state location = JSVal.bool false)
      ∧ (∀ bp, getBreakpoint state location = some bp → bp.disabled = JSVal.bool false →
          breakpointExists getBreakpoint state location = JSVal.bool true) := by
  unfold breakpointExists
  refine ⟨?_, ?_, ?_⟩
  · cases hget : getBreakpoint state location with
    | none => simp
    | some bp => cases ht : bp.disabled.truthy <;> simp [ht]
  · intro bp hget hd
    rw [hget]
    simp [hd, JSVal.truthy]
  · intro bp hget hd
    rw [hget]
    simp [hd, JSVal.truthy]

theorem breakpointExists_true_iff_witness :
    breakpointExists (fun (_ : Unit) (_ : Option Location) => some (bpAt 1 1)) () none
      = JSVal.bool true :=
  (breakpointExists_true_iff (fun (_ : Unit) (_ : Option Location) => some (bpAt 1 1)) ()
    none).2.2 (bpAt 1 1) rfl rfl

/-! ## The first string -/

/-- firstString is the first element that is a string, null when there is
none. -/
theorem firstString_eq_find? (args : List JSVal) :
    firstString args = (args.find? JSVal.isString).getD JSVal.null := by
  induction args with
  | nil => rfl
  | cons arg rest ih =>
    unfold firstString
    cases h : arg.isString <;> simp [List.find?, h, ih]

theorem isString_iff (v : JSVal) : v.isString = true ↔ ∃ s, v = JSVal.str s := by
  cases v <;> simp [JSVal.isString]

/-- C15: firstString returns the string s exactly when s is the first
argument, in order, whose type is string (the empty string included); it
returns null exactly when no argument is a string; it returns nothing else.
firstString(undefined, null, "", "b") is "". -/
theorem firstString_first (args : List JSVal) :
    (∀ s : String, firstString args = JSVal.str s
        ↔ ∃ before after, args = before ++ JSVal.str s :: after
            ∧ ∀ x ∈ before, x.isString = false)
      ∧ (firstString args = JSVal.null ↔ ∀ x ∈ args, x.isString = false)
      ∧ (firstString args = JSVal.null ∨ ∃ s, firstString args = JSVal.str s)
      ∧ firstString [JSVal.undefined, JSVal.null, JSVal.str "", JSVal.str "b"] = JSVal.str "" := by
  rw [firstString_eq_find?]
  refine ⟨?_, ?_, ?_, rfl⟩
  · intro s
    cases hf : args.find? JSVal.isString with
    | none =>
      simp only [Option.getD_none]
      constructor
      · intro h
        cases h
      · rintro ⟨before, after, hsplit, -⟩
        rw [List.find?_eq_none] at hf
        have := hf (JSVal.str s) (by rw [hsplit]; simp)
        simp [JSVal.isString] at this
    | some v =>
      simp only [Option.getD_some]
      rw [List.find?_eq_some] at hf
      obtain ⟨hv, as, bs, hsplit, hpre⟩ := hf
      constructor
      · intro h
        subst h
        exact ⟨as, bs, hsplit, fun x hx => by simpa using hpre x hx⟩
      · rintro ⟨before, after, hsplit2, hpre2⟩
        have hfind : args.find? JSVal.isString = some (JSVal.str s) := by
          rw [List.find?_eq_some]
          exact ⟨rfl, before, after, hsplit2, fun x hx => by simpa using hpre2 x hx⟩
        have hfind2 : args.find? JSVal.isString = some v := by
          rw [List.find?_eq_some]
          exact ⟨hv, as, bs, hsplit, hpre⟩
        rw [hfind] at hfind2
        cases hfind2
        rfl
  · cases hf : args.find? JSVal.isString with
    | none =>
      simp only [Option.getD_none, true_iff]
      rw [List.find?_eq_none] at hf
      intro x hx
      simpa using hf x hx
    | some v =>
      simp only [Option.getD_some]
      rw [List.find?_eq_some] at hf
      obtain ⟨hv, as, bs, hsplit, -⟩ := hf
      obtain ⟨s, hs⟩ := (isString_iff v).1 hv
      subst hs
      constructor
      · intro h
        cases h
      · intro h
        have := h (JSVal.str s) (by rw [hsplit]; simp)
        simp [JSVal.isString] at this
  · cases hf : args.find? JSVal.isString with
    | none => exact Or.inl rfl
    | some v =>
      right
      obtain ⟨s, hs⟩ := (isString_iff v).1 (List.find?_some hf)
      exact ⟨s, by simp [hs]⟩

/-! ## Assertions on breakpoints -/

/-- C16: assertBreakpoint succeeds exactly when assertLocation succeeds on
the location and on the generatedLocation of the breakpoint; a breakpoint
whose location is valid and whose generatedLocation has the sourceId "" is
rejected. -/
theorem assertBreakpoint_ok_iff (breakpoint : Breakpoint) :
    (assertBreakpoint breakpoint = Except.ok ()
        ↔ assertLocation breakpoint.location = Except.ok ()
          ∧ assertLocation breakpoint.generatedLocation = Except.ok ())
      ∧ assertLocation (some ⟨some (JSVal.str "s"), some JSVal.null, some (JSVal.num 1), none⟩)
          = Except.ok ()
      ∧ assertBreakpoint
          (createBreakpoint (some ⟨some (JSVal.str "s"), some JSVal.null, some (JSVal.num 1), none⟩)
            (some { noOverrides with
                    generatedLocation :=
                      some ⟨some (JSVal.str ""), some JSVal.null, some (JSVal.num 1), none⟩ }))
          = Except.error (Err.assertion "location must have a source id") := by
  refine ⟨?_, rfl, rfl⟩
  unfold assertBreakpoint
  cases h1 : assertLocation breakpoint.location with
  | error e => simp [bind, Except.bind]
  | ok u => simp [bind, Except.bind]

/-! ## Key without the column -/

/-- C17: for a string sourceId s and a numeric line n,
getLocationWithoutColumn returns s ++ ":" ++ decimal(n); and two locations
with the same sourceId and the same line get the same key whatever their
columns (and sourceUrls) are. -/
theorem getLocationWithoutColumn_encoding (sourceId line : Option JSVal) :
    (∀ (s : String) (n : Int) (sourceUrl column : Option JSVal),
        getLocationWithoutColumn (some ⟨some (JSVal.str s), sourceUrl, some (JSVal.num n), column⟩)
          = Except.ok (s ++ ":" ++ toString n))
      ∧ (∀ sourceUrl1 column1 sourceUrl2 column2 : Option JSVal,
        getLocationWithoutColumn (some ⟨sourceId, sourceUrl1, line, column1⟩)
          = getLocationWithoutColumn (some ⟨sourceId, sourceUrl2, line, column2⟩))
      ∧ getLocationWithoutColumn
          (some ⟨some (JSVal.str "src1"), none, some (JSVal.num 10), some (JSVal.num 4)⟩)
          = Except.ok "src1:10" :=
  ⟨fun _ _ _ _ => rfl, fun _ _ _ _ => rfl, rfl⟩

/-! ## The generated location is not validated -/

/-- C18: createPendingBreakpoint validates the primary location, and only
that one. On a breakpoint that has a location and a generatedLocation it
succeeds exactly when the sourceUrl of the location does not read as
undefined; when it does read as undefined the call fails with "location must
have a source url". Neither outcome depends on the sourceUrl of the
generatedLocation, which may be replaced by anything or removed. The
breakpoint made from {sourceId: "s", sourceUrl: "a.js", line: 1} with the
generatedLocation {sourceId: "g", line: 1}, which has no sourceUrl, is
turned into a pending breakpoint on which assertPendingBreakpoint fails; the
breakpoint made from {sourceId: "s", line: 1} with the generatedLocation
{sourceId: "g", sourceUrl: "a.js", line: 1} is refused. -/
theorem createPendingBreakpoint_location_only (bp : Breakpoint) (l g : Location)
    (hl : bp.location = some l) (hg : bp.generatedLocation = some g) :
    ((∃ p, createPendingBreakpoint bp = Except.ok p) ↔ prop l.sourceUrl ≠ JSVal.undefined)
      ∧ (prop l.sourceUrl ≠ JSVal.undefined → ∀ u : Option JSVal,
          ∃ p, createPendingBreakpoint
                { bp with generatedLocation := some { g with sourceUrl := u } } = Except.ok p)
      ∧ (prop l.sourceUrl = JSVal.undefined →
          createPendingBreakpoint bp
            = Except.error (Err.assertion "location must have a source url"))
      ∧ (prop l.sourceUrl = JSVal.undefined → ∀ u : Option JSVal,
          createPendingBreakpoint { bp with generatedLocation := some { g with sourceUrl := u } }
            = Except.error (Err.assertion "location must have a source url"))
      ∧ (∃ p, createPendingBreakpoint
                (createBreakpoint
                  (some ⟨some (JSVal.str "s"), some (JSVal.str "a.js"), some (JSVal.num 1), none⟩)
                  (some { noOverrides with
                          generatedLocation :=
                            some ⟨some (JSVal.str "g"), none, some (JSVal.num 1), none⟩ }))
              = Except.ok p
            ∧ assertPendingBreakpoint p
              = Except.error (Err.assertion "location must have a source url"))
      ∧ createPendingBreakpoint
          (createBreakpoint
            (some ⟨some (JSVal.str "s"), none, some (JSVal.num 1), none⟩)
            (some { noOverrides with
                    generatedLocation :=
                      some ⟨some (JSVal.str "g"), some (JSVal.str "a.js"), some (JSVal.num 1),
                            none⟩ }))
          = Except.error (Err.assertion "location must have a source url") := by
  refine ⟨?_, ?_, ?_, ?_, ⟨_, rfl, rfl⟩, rfl⟩
  · rw [createPendingBreakpoint_some bp l g hl hg]
    by_cases hurl : prop l.sourceUrl = JSVal.undefined
    · rw [if_pos hurl]
      constructor
      · rintro ⟨p, hp⟩
        cases hp
      · intro hne
        exact absurd hurl hne
    · rw [if_neg hurl]
      exact ⟨fun _ => hurl, fun _ => ⟨_, rfl⟩⟩
  · intro hurl u
    rw [createPendingBreakpoint_some
      { bp with generatedLocation := some { g with sourceUrl := u } } l { g with sourceUrl := u }
      hl rfl, if_neg hurl]
    exact ⟨_, rfl⟩
  · intro hurl
    rw [createPendingBreakpoint_some bp l g hl hg, if_pos hurl]
  · intro hurl u
    rw [createPendingBreakpoint_some
      { bp with generatedLocation := some { g with sourceUrl := u } } l { g with sourceUrl := u }
      hl rfl, if_pos hurl]

theorem createPendingBreakpoint_location_only_witness :
    (∃ p, createPendingBreakpoint
          (createBreakpoint
            (some ⟨some (JSVal.str "s"), some JSVal.null, some (JSVal.num 1), none⟩)
            (some { noOverrides with
                    generatedLocation :=
                      some ⟨some (JSVal.str "g"), some JSVal.undefined, some (JSVal.num 1),
                            none⟩ }))
        = Except.ok p)
      ∧ createPendingBreakpoint
          (createBreakpoint
            (some ⟨some (JSVal.str "s"), some JSVal.undefined, some (JSVal.num 1), none⟩)
            (some { noOverrides with
                    generatedLocation :=
                      some ⟨some (JSVal.str "g"), some JSVal.null, some (JSVal.num 1), none⟩ }))
        = Except.error (Err.assertion "location must have a source url") :=
  ⟨(createPendingBreakpoint_location_only _
      ⟨some (JSVal.str "s"), some JSVal.null, some (JSVal.num 1), none⟩
      ⟨some (JSVal.str "g"), some JSVal.undefined, some (JSVal.num 1), none⟩
      rfl rfl).1.2 (by decide),
    (createPendingBreakpoint_location_only _
      ⟨some (JSVal.str "s"), some JSVal.undefined, some (JSVal.num 1), none⟩
      ⟨some (JSVal.str "g"), some JSVal.null, some (JSVal.num 1), none⟩
      rfl rfl).2.2.1 rfl⟩

/-! ## The two granularities of the lookup -/

/-- What find returns, read backwards: the element it returns is accepted and
everything in front of it is rejected without an error. -/
theorem find_ok_some {α : Type} (f : α → Except Err Bool) (xs : List α) (b : α)
    (h : find f xs = Except.ok (some b)) :
    ∃ front back, xs = front ++ b :: back ∧ f b = Except.ok true
      ∧ ∀ x ∈ front, f x = Except.ok false := by
  induction xs with
  | nil =>
    unfold find at h
    cases h
  | cons x rest ih =>
    unfold find at h
    cases hx : f x with
    | error e =>
      rw [hx] at h
      cases h
    | ok r =>
      cases r with
      | true =>
        rw [hx] at h
        simp only [Except.ok.injEq, Option.some.injEq] at h
        subst h
        exact ⟨[], rest, rfl, hx, fun y hy => by cases hy⟩
      | false =>
        rw [hx] at h
        obtain ⟨front, back, hsplit, hb, hfront⟩ := ih h
        refine ⟨x :: front, back, by rw [hsplit]; rfl, hb, ?_⟩
        intro y hy
        rcases List.mem_cons.1 hy with hy | hy
        · rw [hy]
          exact hx
        · exact hfront y hy

/-- The converse: an accepted element behind a rejected front is returned. -/
theorem find_of_split {α : Type} (f : α → Except Err Bool) (front : List α) (b : α)
    (back : List α) (hb : f b = Except.ok true) (hfront : ∀ x ∈ front, f x = Except.ok false) :
    find f (front ++ b :: back) = Except.ok (some b) := by
  induction front with
  | nil =>
    show find f (b :: back) = _
    unfold find
    rw [hb]
  | cons y front ih =>
    show find f (y :: (front ++ b :: back)) = _
    unfold find
    rw [hfront y (List.mem_cons_self y front)]
    exact ih (fun x hx => hfront x (List.mem_cons_of_mem y hx))

/-- The lookup returns nothing exactly when every element is rejected without
an error. -/
theorem find_ok_none_iff {α : Type} (f : α → Except Err Bool) (xs : List α) :
    find f xs = Except.ok none ↔ ∀ x ∈ xs, f x = Except.ok false := by
  induction xs with
  | nil => simp [find]
  | cons x rest ih =>
    unfold find
    cases hx : f x with
    | error e => simp [hx]
    | ok r =>
      cases r with
      | true => simp [hx]
      | false => simp [hx, ih]

/-- In a list whose front never throws, an accepted element is preceded by a
first accepted element, which is not further back. -/
theorem first_accepted {α : Type} (g : α → Except Err Bool) (front : List α) (b : α)
    (back : List α) (hb : g b = Except.ok true) (hfront : ∀ x ∈ front, ∃ r, g x = Except.ok r) :
    ∃ front2 c back2, front ++ b :: back = front2 ++ c :: back2
      ∧ front2.length ≤ front.length ∧ g c = Except.ok true
      ∧ ∀ x ∈ front2, g x = Except.ok false := by
  induction front with
  | nil => exact ⟨[], b, back, rfl, Nat.le_refl _, hb, fun x hx => by cases hx⟩
  | cons y front ih =>
    obtain ⟨r, hr⟩ := hfront y (List.mem_cons_self y front)
    cases r with
    | true =>
      exact ⟨[], y, front ++ b :: back, rfl, Nat.zero_le _, hr, fun x hx => by cases hx⟩
    | false =>
      obtain ⟨front2, c, back2, hsplit, hlen, hc, hrej⟩ :=
        ih (fun x hx => hfront x (List.mem_cons_of_mem y hx))
      refine ⟨y :: front2, c, back2, ?_, ?_, hc, ?_⟩
      · show y :: (front ++ b :: back) = y :: (front2 ++ c :: back2)
        rw [hsplit]
      · simp only [List.length_cons]
        omega
      · intro x hx
        rcases List.mem_cons.1 hx with hx | hx
        · rw [hx]
          exact hr
        · exact hrej x hx

/-- The callback returns only on a breakpoint that has a location, and then
it returns the predicate of its granularity. -/
theorem atLocation_ok (columnBreakpoints : Bool) (line column : JSVal) (x : Breakpoint)
    (r : Bool) (h : atLocation columnBreakpoints line column x = Except.ok r) :
    x.location ≠ none
      ∧ r = (if columnBreakpoints then onLineColumn line column x else onLine line x) := by
  have hloc : x.location ≠ none := by
    intro hnone
    unfold atLocation at h
    rw [hnone] at h
    cases h
  rw [atLocation_of_location columnBreakpoints line column x hloc] at h
  exact ⟨hloc, (Except.ok.inj h).symm⟩

theorem onLine_of_onLineColumn (line column : JSVal) (x : Breakpoint)
    (h : onLineColumn line column x = true) : onLine line x = true := by
  unfold onLineColumn at h
  unfold onLine
  cases hl : x.location with
  | none => simp [hl] at h
  | some l =>
    simp only [hl, Bool.and_eq_true] at h
    exact h.1

/-- C20: the two granularities agree. If the lookup with column breakpoints
enabled returns b, found at index i (the first index whose breakpoint matches
line and column), then the lookup with column breakpoints disabled returns a
breakpoint c, found at an index j with j <= i (the first index whose
breakpoint is on the query line), and c is on the query line. If the
disabled lookup returns nothing, so does the enabled lookup. -/
theorem lookup_granularities_consistent (breakpoints : List Breakpoint) (q : Location) :
    (∀ b, breakpointAtLocation true breakpoints (some q) = Except.ok (some b) →
        ∃ (i j : Nat) (c : Breakpoint), j ≤ i
          ∧ breakpoints[i]? = some b
          ∧ onLineColumn (prop q.line) (prop q.column) b = true
          ∧ (∀ (k : Nat) (x : Breakpoint), k < i → breakpoints[k]? = some x →
              onLineColumn (prop q.line) (prop q.column) x = false)
          ∧ breakpointAtLocation false breakpoints (some q) = Except.ok (some c)
          ∧ breakpoints[j]? = some c
          ∧ onLine (prop q.line) c = true
          ∧ (∀ (k : Nat) (x : Breakpoint), k < j → breakpoints[k]? = some x → onLine (prop q.line) x = false))
      ∧ (breakpointAtLocation false breakpoints (some q) = Except.ok none →
          breakpointAtLocation true breakpoints (some q) = Except.ok none) := by
  constructor
  · intro b h
    obtain ⟨front, back, hsplit, hb, hfront⟩ := find_ok_some _ _ _ h
    have hbcol := (atLocation_ok true _ _ b true hb).2
    have hbloc := (atLocation_ok true _ _ b true hb).1
    simp only [if_true] at hbcol
    have hbline : onLine (prop q.line) b = true := onLine_of_onLineColumn _ _ b hbcol.symm
    have gb : atLocation false (prop q.line) (prop q.column) b = Except.ok true := by
      rw [atLocation_of_location false _ _ b hbloc]
      simp [hbline]
    have gfront : ∀ x ∈ front,
        ∃ r, atLocation false (prop q.line) (prop q.column) x = Except.ok r := by
      intro x hx
      have hxloc := (atLocation_ok true _ _ x false (hfront x hx)).1
      exact ⟨_, atLocation_of_location false _ _ x hxloc⟩
    obtain ⟨front2, c, back2, hsplit2, hlen, hc, hrej⟩ :=
      first_accepted _ front b back gb gfront
    have hcline := (atLocation_ok false _ _ c true hc).2
    simp only [Bool.false_eq_true, if_false] at hcline
    refine ⟨front.length, front2.length, c, hlen, ?_, hbcol.symm, ?_, ?_, ?_, hcline.symm, ?_⟩
    · rw [hsplit, List.getElem?_append_right (Nat.le_refl _)]
      simp
    · intro k x hk hx
      rw [hsplit, List.getElem?_append_left hk] at hx
      have := (atLocation_ok true _ _ x false (hfront x (List.getElem?_mem hx))).2
      simpa using this.symm
    · show find _ breakpoints = _
      rw [hsplit, hsplit2]
      exact find_of_split _ front2 c back2 hc hrej
    · rw [hsplit, hsplit2, List.getElem?_append_right (Nat.le_refl _)]
      simp
    · intro k x hk hx
      rw [hsplit, hsplit2, List.getElem?_append_left hk] at hx
      have := (atLocation_ok false _ _ x false (hrej x (List.getElem?_mem hx))).2
      simpa using this.symm
  · intro h
    have hall := (find_ok_none_iff _ _).1 h
    apply (find_ok_none_iff _ _).2
    intro x hx
    have hxloc := (atLocation_ok false _ _ x false (hall x hx)).1
    have hxline := (atLocation_ok false _ _ x false (hall x hx)).2
    simp only [Bool.false_eq_true, if_false] at hxline
    rw [atLocation_of_location true _ _ x hxloc]
    simp only [if_true, Except.ok.injEq]
    cases hcol : onLineColumn (prop q.line) (prop q.column) x with
    | false => rfl
    | true =>
      rw [onLine_of_onLineColumn _ _ x hcol] at hxline
      cases hxline

theorem lookup_granularities_consistent_witness :
    ∃ (i j : Nat) (c : Breakpoint), j ≤ i
      ∧ [bpAt 5 2, bpAt 5 9][i]? = some (bpAt 5 9)
      ∧ onLineColumn (JSVal.num 5) (JSVal.num 9) (bpAt 5 9) = true
      ∧ (∀ (k : Nat) (x : Breakpoint), k < i → [bpAt 5 2, bpAt 5 9][k]? = some x →
          onLineColumn (JSVal.num 5) (JSVal.num 9) x = false)
      ∧ breakpointAtLocation false [bpAt 5 2, bpAt 5 9]
          (some ⟨none, none, some (JSVal.num 5), some (JSVal.num 9)⟩) = Except.ok (some c)
      ∧ [bpAt 5 2, bpAt 5 9][j]? = some c
      ∧ onLine (JSVal.num 5) c = true
      ∧ (∀ (k : Nat) (x : Breakpoint), k < j → [bpAt 5 2, bpAt 5 9][k]? = some x → onLine (JSVal.num 5) x = false) :=
  (lookup_granularities_consistent [bpAt 5 2, bpAt 5 9]
    ⟨none, none, some (JSVal.num 5), some (JSVal.num 9)⟩).1 (bpAt 5 9) rfl

/-! ## Reading the key back -/

theorem decimalValue_snoc (ds : List Char) (d : Char) :
    decimalValue (ds ++ [d]) = 10 * decimalValue ds + (d.toNat - 48) := by
  simp [decimalValue, List.foldl_append]

/-- A decimal digit character denotes its digit and is not the colon. -/
theorem digitChar_decimal (m : Nat) (hm : m < 10) :
    (Nat.digitChar m).toNat - 48 = m ∧ Nat.digitChar m ≠ ':' := by
  interval_cases m <;> decide

/-- With enough fuel the digit loop puts, in front of what it was given, a
run of characters that denotes the number, is not empty and has no colon. -/
theorem toDigitsCore_run (n : Nat) :
    ∀ (fuel : Nat) (rest : List Char), n < fuel →
      ∃ run : List Char, decimalValue run = n ∧ run ≠ [] ∧ (∀ c ∈ run, c ≠ ':')
        ∧ Nat.toDigitsCore 10 fuel n rest = run ++ rest := by
  induction n using Nat.strong_induction_on with
  | _ n ih =>
    intro fuel rest hfuel
    have hd := digitChar_decimal (n % 10) (Nat.mod_lt n (by decide))
    cases fuel with
    | zero => omega
    | succ fuel =>
      unfold Nat.toDigitsCore
      by_cases hq : n / 10 = 0
      · simp only [hq, if_true]
        refine ⟨[Nat.digitChar (n % 10)], ?_, by simp, ?_, rfl⟩
        · have hone : decimalValue [Nat.digitChar (n % 10)]
              = (Nat.digitChar (n % 10)).toNat - 48 := by
            simp [decimalValue]
          rw [hone, hd.1]
          omega
        · intro c hc
          rw [List.mem_singleton.1 hc]
          exact hd.2
      · simp only [hq, if_false]
        obtain ⟨run, hval, hne, hcolon, hrun⟩ :=
          ih (n / 10) (by omega) fuel (Nat.digitChar (n % 10) :: rest) (by omega)
        refine ⟨run ++ [Nat.digitChar (n % 10)], ?_, by simp, ?_, ?_⟩
        · rw [decimalValue_snoc, hval, hd.1]
          omega
        · intro c hc
          rcases List.mem_append.1 hc with hc | hc
          · exact hcolon c hc
          · rw [List.mem_singleton.1 hc]
            exact hd.2
        · rw [hrun]
          simp

/-- The rendering of a natural number: not empty, no colon, and it denotes
the number. -/
theorem render_nat (n : Nat) :
    (JSVal.num (n : Int)).render.data ≠ []
      ∧ (∀ c ∈ (JSVal.num (n : Int)).render.data, c ≠ ':')
      ∧ decimalValue (JSVal.num (n : Int)).render.data = n := by
  obtain ⟨ds, hval, hne, hcolon, hds⟩ := toDigitsCore_run n (n + 1) [] (Nat.lt_succ_self n)
  have hrepr : (JSVal.num (n : Int)).render.data = ds := by
    show (Nat.toDigits 10 n).asString.data = ds
    unfold Nat.toDigits
    rw [hds]
    simp [List.asString]
  rw [hrepr]
  exact ⟨hne, hcolon, hval⟩

/-- Two texts cut at their first colon are equal piece by piece. -/
theorem split_at_colon : ∀ (a b a2 b2 : List Char), ':' ∉ a → ':' ∉ a2 →
    a ++ ':' :: b = a2 ++ ':' :: b2 → a = a2 ∧ b = b2 := by
  intro a
  induction a with
  | nil =>
    intro b a2 b2 _ h2 h
    cases a2 with
    | nil =>
      simp at h
      exact ⟨rfl, h⟩
    | cons y a2 =>
      simp at h
      exact absurd (by rw [← h.1]; simp) h2
  | cons x a ih =>
    intro b a2 b2 h1 h2 h
    cases a2 with
    | nil =>
      simp at h
      exact absurd (by rw [h.1]; simp) h1
    | cons y a2 =>
      simp only [List.cons_append, List.cons.injEq] at h
      obtain ⟨hxy, hrest⟩ := h
      have := ih b a2 b2 (fun hc => h1 (List.mem_cons_of_mem x hc))
        (fun hc => h2 (List.mem_cons_of_mem y hc)) hrest
      exact ⟨by rw [hxy, this.1], this.2⟩

/-- The characters of the key of a location with a string sourceId and a
natural line. -/
theorem makeLocationId_data (l : Location) (s : String) (n : Nat)
    (hs : l.sourceId = some (JSVal.str s)) (hn : l.line = some (JSVal.num (n : Int))) :
    ∃ k, makeLocationId (some l) = Except.ok k
      ∧ k.data = s.data ++ ':' :: ((JSVal.num (n : Int)).render.data
          ++ ':' :: (JSVal.or (prop l.column) (JSVal.str "")).render.data) := by
  refine ⟨_, rfl, ?_⟩
  simp only [hs, hn, prop, Option.getD_some, String.data_append, List.append_assoc]
  rfl

/-- C19: on the restricted domain (a string sourceId without a colon, a
natural line, a column that is absent or a positive natural number)
makeLocationId returns a key, and two locations with equal keys have equal
sourceId, equal line and equal column. -/
theorem makeLocationId_injective_on_domain (a b : Location)
    (ha : InKeyDomain a) (hb : InKeyDomain b)
    (h : makeLocationId (some a) = makeLocationId (some b)) :
    (∃ k, makeLocationId (some a) = Except.ok k)
      ∧ a.sourceId = b.sourceId ∧ a.line = b.line ∧ a.column = b.column := by
  obtain ⟨⟨s1, hs1, hc1⟩, ⟨n1, hn1⟩, hcol1⟩ := ha
  obtain ⟨⟨s2, hs2, hc2⟩, ⟨n2, hn2⟩, hcol2⟩ := hb
  obtain ⟨k1, hk1, hd1⟩ := makeLocationId_data a s1 n1 hs1 hn1
  obtain ⟨k2, hk2, hd2⟩ := makeLocationId_data b s2 n2 hs2 hn2
  rw [hk1, hk2] at h
  have hk : k1 = k2 := Except.ok.inj h
  rw [hk, hd2] at hd1
  obtain ⟨hsid, hrest⟩ := split_at_colon _ _ _ _ hc2 hc1 hd1
  obtain ⟨hline, hseg⟩ := split_at_colon _ _ _ _
    (fun hc => (render_nat n2).2.1 _ hc rfl) (fun hc => (render_nat n1).2.1 _ hc rfl) hrest
  have hs : s1 = s2 := by
    cases s1
    cases s2
    simp only at hsid
    rw [hsid]
  have hn : n1 = n2 := by
    rw [← (render_nat n1).2.2, ← (render_nat n2).2.2, hline]
  refine ⟨⟨k1, hk1⟩, by rw [hs1, hs2, hs], by rw [hn1, hn2, hn], ?_⟩
  have seg_none : ∀ l : Location, l.column = none →
      (JSVal.or (prop l.column) (JSVal.str "")).render.data = [] := by
    intro l hl
    rw [hl]
    rfl
  have seg_some : ∀ (l : Location) (c : Nat), 0 < c → l.column = some (JSVal.num (c : Int)) →
      (JSVal.or (prop l.column) (JSVal.str "")).render.data = (JSVal.num (c : Int)).render.data := by
    intro l c hc hl
    rw [hl]
    have : (JSVal.num (c : Int)).truthy = true := by
      simp [JSVal.truthy]
      omega
    simp [prop, JSVal.or, this]
  rcases hcol1 with h1 | ⟨c1, hpos1, h1⟩ <;> rcases hcol2 with h2 | ⟨c2, hpos2, h2⟩
  · rw [h1, h2]
  · rw [seg_none a h1, seg_some b c2 hpos2 h2] at hseg
    exact absurd hseg (render_nat c2).1
  · rw [seg_some a c1 hpos1 h1, seg_none b h2] at hseg
    exact absurd hseg.symm (render_nat c1).1
  · rw [seg_some a c1 hpos1 h1, seg_some b c2 hpos2 h2] at hseg
    have hc : c1 = c2 := by
      rw [← (render_nat c1).2.2, ← (render_nat c2).2.2, hseg]
    rw [h1, h2, hc]

theorem makeLocationId_injective_on_domain_witness :
    (⟨some (JSVal.str "src1"), none, some (JSVal.num 10), some (JSVal.num 4)⟩ : Location).column
      = (⟨some (JSVal.str "src1"), some JSVal.null, some (JSVal.num 10), some (JSVal.num 4)⟩ :
          Location).column :=
  (makeLocationId_injective_on_domain
    ⟨some (JSVal.str "src1"), none, some (JSVal.num 10), some (JSVal.num 4)⟩
    ⟨some (JSVal.str "src1"), some JSVal.null, some (JSVal.num 10), some (JSVal.num 4)⟩
    ⟨⟨"src1", rfl, by decide⟩, ⟨10, rfl⟩, Or.inr ⟨4, by decide, rfl⟩⟩
    ⟨⟨"src1", rfl, by decide⟩, ⟨10, rfl⟩, Or.inr ⟨4, by decide, rfl⟩⟩
    rfl).2.2.2

end BreakpointUtils
